import Mathlib

/-!
Verification of the Anti-Counterfeit repository's token issuance/verification
core and scan-risk scoring, as a shallow embedding in Lean 4.

Sources embedded:
* `src/unnamed/part_003` — canonical JSON encoder (`canonicalize`), the
  `/sign` and `/verify` routes built on Node's `crypto` RSA-SHA256 sign/verify.
* `src/anti-counterfeit-backend/index.js` — the `/verify-token` route
  (jsonwebtoken `jwt.verify` with RS256), the product-registry `is_active`
  check, the scan-ledger inserts and `calculateRiskLevel`.
-/

/-! ## JavaScript values as seen by `canonicalize`

`canonicalize` (src/unnamed/part_003, lines 52-57) serializes a JSON-like
JavaScript value.  JavaScript numbers are IEEE doubles; we model the finite
numbers occurring in payloads as integers and keep the non-finite values
`NaN`, `Infinity`, `-Infinity` as explicit constructors, because
`JSON.stringify` serializes all three as `null`. -/

inductive JsNum where
  | int (n : Int)
  | nan
  | infinity
  | negInfinity
deriving DecidableEq, Repr

/-- A JavaScript JSON-like value.  Objects are association lists in insertion
order (JavaScript objects have distinct keys; well-formedness is the separate
predicate `WFJ` below). -/
inductive JVal where
  | null
  | bool (b : Bool)
  | num (n : JsNum)
  | str (s : String)
  | arr (elems : List JVal)
  | obj (fields : List (String × JVal))
deriving Repr

/-- Model of `JSON.stringify` on a number: finite numbers print in decimal,
`NaN`/`Infinity`/`-Infinity` become `null`. -/
def numToString : JsNum → String
  | .int n => toString n
  | .nan => "null"
  | .infinity => "null"
  | .negInfinity => "null"

/-- Lower-case hex digit, `JSON.stringify` style. -/
def hexDigit (n : Nat) : Char :=
  if n < 10 then Char.ofNat (n + 48) else Char.ofNat (n + 87)

/-- Four-digit hex rendering used in `\uXXXX` escapes. -/
def hex4 (n : Nat) : List Char :=
  [hexDigit ((n / 4096) % 16), hexDigit ((n / 256) % 16),
   hexDigit ((n / 16) % 16), hexDigit (n % 16)]

/-- Per-character escaping of `JSON.stringify` for string values. -/
def escapeChar (c : Char) : List Char :=
  if c = '"' then ['\\', '"']
  else if c = '\\' then ['\\', '\\']
  else if c = '\n' then ['\\', 'n']
  else if c = '\r' then ['\\', 'r']
  else if c = '\t' then ['\\', 't']
  else if c = '\x08' then ['\\', 'b']
  else if c = '\x0c' then ['\\', 'f']
  else if c.toNat < 32 then '\\' :: 'u' :: hex4 c.toNat
  else [c]

/-- Model of `JSON.stringify` of a string value: double quotes around the escaped
characters. -/
def jsonQuote (s : String) : String :=
  ⟨'"' :: (s.data.map escapeChar).flatten ++ ['"']⟩

/-- Separator-prefixed tail of `Array.prototype.join(",")`: a comma before each
later element. -/
def joinSufAux : List String → String
  | [] => ""
  | s :: rest => "," ++ s ++ joinSufAux rest

/-- Model of `Array.prototype.join(",")` as used by `.join(",")` in
`canonicalize`: the first element, then each later element preceded by a comma. -/
def joinComma : List String → String
  | [] => ""
  | s :: rest => s ++ joinSufAux rest

/-- Lexicographic strict comparison of character lists.  JavaScript's default
`Array.prototype.sort()` compares key strings by UTF-16 code units; we compare
by Unicode code point, which is the same fixed total order on the strings that
occur as object keys (and every property proved below depends only on the
comparator being a fixed total order). -/
def charsLt : List Char → List Char → Bool
  | [], [] => false
  | [], _ :: _ => true
  | _ :: _, [] => false
  | a :: as, b :: bs => if a < b then true else if b < a then false else charsLt as bs

/-- Strict "key before key" comparison used by `Object.keys(obj).sort()`. -/
def keyLt (s t : String) : Bool := charsLt s.data t.data

/-- One insertion step of the key sort; only the key (the first component) is
ever inspected. -/
def insertPair (x : String × String) : List (String × String) → List (String × String)
  | [] => [x]
  | y :: l => if keyLt y.1 x.1 then y :: insertPair x l else x :: y :: l

/-- Insertion sort of (key, serialized value) pairs by key, modelling
`Object.keys(obj).sort()`. -/
def sortPairs : List (String × String) → List (String × String)
  | [] => []
  | x :: l => insertPair x (sortPairs l)

/-- One serialized object field: `JSON.stringify(k) + ":" + value`. -/
def serializeField (p : String × String) : String :=
  jsonQuote p.1 ++ ":" ++ p.2

/-- The canonical encoder `canonicalize` of src/unnamed/part_003:

```js
function canonicalize(obj) {
  if (obj === null || typeof obj !== "object") return JSON.stringify(obj);
  if (Array.isArray(obj)) return "[" + obj.map(canonicalize).join(",") + "]";
  const keys = Object.keys(obj).sort();
  return "{" + keys.map(k => JSON.stringify(k) + ":" + canonicalize(obj[k])).join(",") + "}";
}
```

The object case sorts the (distinct) keys and serializes each field's value.
Since the sort comparator inspects only keys, we serialize each field's value
first and then sort the (key, serialized value) pairs by key - the output
string is the same. -/
def canonicalize : JVal → String
  | .null => "null"
  | .bool b => if b then "true" else "false"
  | .num n => numToString n
  | .str s => jsonQuote s
  | .arr xs => "[" ++ joinComma (xs.attach.map (fun x => canonicalize x.1)) ++ "]"
  | .obj fs =>
      "\x7b" ++
        joinComma ((sortPairs (fs.attach.map (fun kv => (kv.1.1, canonicalize kv.1.2)))).map
          serializeField) ++
      "\x7d"
termination_by v => sizeOf v
decreasing_by
  · have h := List.sizeOf_lt_of_mem x.2
    simp only [JVal.arr.sizeOf_spec]
    omega
  · have h := List.sizeOf_lt_of_mem kv.2
    have h2 : sizeOf kv.1 = 1 + sizeOf kv.1.1 + sizeOf kv.1.2 := by
      obtain ⟨⟨k, v⟩, hk⟩ := kv
      simp
    simp only [JVal.obj.sizeOf_spec]
    omega

theorem canonicalize_null : canonicalize .null = "null" := by
  simp [canonicalize]

theorem canonicalize_bool (b : Bool) : canonicalize (.bool b) = if b then "true" else "false" := by
  simp [canonicalize]

theorem canonicalize_num (n : JsNum) : canonicalize (.num n) = numToString n := by
  simp [canonicalize]

theorem canonicalize_str (s : String) : canonicalize (.str s) = jsonQuote s := by
  simp [canonicalize]

theorem canonicalize_arr (xs : List JVal) :
    canonicalize (.arr xs) = "[" ++ joinComma (xs.map canonicalize) ++ "]" := by
  rw [canonicalize]
  congr 1
  rw [List.attach_map_coe]

theorem canonicalize_obj (fs : List (String × JVal)) :
    canonicalize (.obj fs) =
      "\x7b" ++
        joinComma ((sortPairs (fs.map (fun kv => (kv.1, canonicalize kv.2)))).map serializeField) ++
      "\x7d" := by
  rw [canonicalize]
  congr 2
  rw [List.attach_map_coe fs (fun kv => (kv.1, canonicalize kv.2))]

/-! ## String and join helper lemmas -/

theorem strAppend_cancel_left {x a b : String} (h : x ++ a = x ++ b) : a = b := by
  apply String.ext
  have h2 := congrArg String.data h
  simp only [String.data_append] at h2
  exact List.append_cancel_left h2

theorem strAppend_cancel_right {a b y : String} (h : a ++ y = b ++ y) : a = b := by
  apply String.ext
  have h2 := congrArg String.data h
  simp only [String.data_append] at h2
  exact List.append_cancel_right h2

theorem strAppend_middle_cancel {x a b y : String} (h : x ++ (a ++ y) = x ++ (b ++ y)) :
    a = b :=
  strAppend_cancel_right (strAppend_cancel_left h)

theorem joinSufAux_append (P Q : List String) :
    joinSufAux (P ++ Q) = joinSufAux P ++ joinSufAux Q := by
  induction P with
  | nil =>
      apply String.ext
      simp [joinSufAux]
  | cons p ps ih =>
      apply String.ext
      simp [joinSufAux, ih]

/-- `joinComma` of a list with a distinguished middle element: the prefix
string `X` depends only on the surrounding elements, never on the middle
element itself. -/
theorem joinComma_split (A : List String) (C : List String) :
    ∃ X, ∀ b, joinComma (A ++ b :: C) = X ++ (b ++ joinSufAux C) := by
  cases A with
  | nil =>
      refine ⟨"", fun b => ?_⟩
      apply String.ext
      simp [joinComma]
  | cons a as =>
      refine ⟨a ++ joinSufAux as ++ ",", fun b => ?_⟩
      apply String.ext
      simp [joinComma, joinSufAux_append, joinSufAux]

/-! ## Order lemmas for the key comparator -/

theorem charsLt_irrefl (l : List Char) : charsLt l l = false := by
  induction l with
  | nil => rfl
  | cons a as ih => simp [charsLt, ih]

theorem charsLt_asymm : ∀ {l₁ l₂ : List Char},
    charsLt l₁ l₂ = true → charsLt l₂ l₁ = false
  | [], l₂ => by cases l₂ <;> simp [charsLt]
  | _ :: _, [] => by simp [charsLt]
  | a :: as, b :: bs => by
      simp only [charsLt]
      intro h
      by_cases hab : a < b
      · have hba : ¬ b < a := asymm hab
        simp [hba, ne_of_gt hab, hab]
      · by_cases hba : b < a
        · simp [hab, hba] at h
        · simp only [hab, if_false, hba] at h
          simp [hab, hba, charsLt_asymm h]

theorem charsLt_connex : ∀ {l₁ l₂ : List Char},
    charsLt l₁ l₂ = false → charsLt l₂ l₁ = false → l₁ = l₂
  | [], l₂ => by cases l₂ <;> simp [charsLt]
  | _ :: _, [] => by simp [charsLt]
  | a :: as, b :: bs => by
      simp only [charsLt]
      intro h₁ h₂
      by_cases hab : a < b
      · simp [hab] at h₁
      · by_cases hba : b < a
        · simp [hba] at h₂
        · have : a = b := le_antisymm (not_lt.mp hba) (not_lt.mp hab)
          subst this
          simp only [hab, if_false, hba] at h₁ h₂
          simp [charsLt_connex h₁ h₂]

theorem charsLt_trans : ∀ {l₁ l₂ l₃ : List Char},
    charsLt l₁ l₂ = true → charsLt l₂ l₃ = true → charsLt l₁ l₃ = true
  | [], l₂, l₃ => by cases l₂ <;> cases l₃ <;> simp [charsLt]
  | _ :: _, [], l₃ => by simp [charsLt]
  | _ :: _, _ :: _, [] => by simp [charsLt]
  | a :: as, b :: bs, c :: cs => by
      simp only [charsLt]
      intro h₁ h₂
      by_cases hab : a < b
      · by_cases hbc : b < c
        · simp [lt_trans hab hbc]
        · by_cases hcb : c < b
          · simp [hab, hbc, hcb] at h₂
          · have : b = c := le_antisymm (not_lt.mp hcb) (not_lt.mp hbc)
            subst this
            simp [hab]
      · by_cases hba : b < a
        · simp [hab, hba] at h₁
        · have : a = b := le_antisymm (not_lt.mp hba) (not_lt.mp hab)
          subst this
          simp only [lt_irrefl, if_false] at h₁
          by_cases hac : a < c
          · simp [hac]
          · by_cases hca : c < a
            · simp [hac, hca] at h₂
            · simp only [hac, if_false, hca] at h₂ ⊢
              exact charsLt_trans h₁ h₂

theorem keyLt_irrefl (s : String) : keyLt s s = false := charsLt_irrefl s.data

theorem keyLt_asymm {s t : String} (h : keyLt s t = true) : keyLt t s = false :=
  charsLt_asymm h

theorem keyLt_connex {s t : String} (h₁ : keyLt s t = false) (h₂ : keyLt t s = false) :
    s = t :=
  String.ext (charsLt_connex h₁ h₂)

theorem keyLt_trans {s t u : String} (h₁ : keyLt s t = true) (h₂ : keyLt t u = true) :
    keyLt s u = true :=
  charsLt_trans h₁ h₂

/-! ## Lemmas about the key-insertion sort -/

theorem keyLe_trans {x y z : String} (h₁ : keyLt y x = false) (h₂ : keyLt z y = false) :
    keyLt z x = false := by
  cases hzx : keyLt z x with
  | false => rfl
  | true =>
      exfalso
      by_cases hyz : keyLt y z = true
      · have h3 := keyLt_trans hyz hzx
        rw [h3] at h₁
        exact Bool.noConfusion h₁
      · have h4 : y = z := keyLt_connex (Bool.not_eq_true _ ▸ Bool.of_not_eq_true hyz) h₂
        subst h4
        rw [hzx] at h₁
        exact Bool.noConfusion h₁

theorem insertPair_perm (x : String × String) (l : List (String × String)) :
    (insertPair x l).Perm (x :: l) := by
  induction l with
  | nil => exact List.Perm.refl _
  | cons y ys ih =>
      by_cases h : keyLt y.1 x.1 = true
      · rw [insertPair, if_pos h]
        exact (ih.cons y).trans (List.Perm.swap x y ys)
      · rw [insertPair, if_neg h]

theorem sortPairs_perm (l : List (String × String)) : (sortPairs l).Perm l := by
  induction l with
  | nil => exact List.Perm.refl _
  | cons x ys ih =>
      rw [sortPairs]
      exact (insertPair_perm x (sortPairs ys)).trans (ih.cons x)

/-- Sortedness by key: no later entry's key is strictly before an earlier one. -/
def KeySorted (l : List (String × String)) : Prop :=
  l.Pairwise (fun p q => keyLt q.1 p.1 = false)

theorem insertPair_sorted (x : String × String) {l : List (String × String)}
    (h : KeySorted l) : KeySorted (insertPair x l) := by
  induction l with
  | nil => exact List.pairwise_singleton _ _
  | cons y ys ih =>
      have hy : ∀ z ∈ ys, keyLt z.1 y.1 = false := fun z hz => List.rel_of_pairwise_cons h hz
      have hys : KeySorted ys := h.of_cons
      by_cases hc : keyLt y.1 x.1 = true
      · rw [insertPair, if_pos hc]
        refine List.Pairwise.cons ?_ (ih hys)
        intro z hz
        have hz2 : z ∈ x :: ys := (insertPair_perm x ys).mem_iff.mp hz
        rcases List.mem_cons.mp hz2 with rfl | hz3
        · exact keyLt_asymm hc
        · exact hy z hz3
      · rw [insertPair, if_neg hc]
        refine List.Pairwise.cons ?_ h
        intro z hz
        have hcx : keyLt y.1 x.1 = false := Bool.of_not_eq_true hc
        rcases List.mem_cons.mp hz with rfl | hz3
        · exact hcx
        · exact keyLe_trans hcx (hy z hz3)

theorem sortPairs_sorted (l : List (String × String)) : KeySorted (sortPairs l) := by
  induction l with
  | nil => exact List.Pairwise.nil
  | cons x ys ih => exact insertPair_sorted x ih

/-- Two key-sorted lists with the same entries (and duplicate-free keys) are
equal: the sorted order of an object's fields is unique. -/
theorem sorted_nodupKeys_perm_eq : ∀ (l₁ l₂ : List (String × String)),
    l₁.Perm l₂ → KeySorted l₁ → KeySorted l₂ → (l₁.map Prod.fst).Nodup → l₁ = l₂
  | [], l₂, h, _, _, _ => (h.symm.eq_nil).symm
  | x :: t₁, l₂, h, hs₁, hs₂, hnd => by
      cases l₂ with
      | nil => exact absurd h.eq_nil (by simp)
      | cons y t₂ =>
          by_cases hxy : x = y
          · subst hxy
            have ht := h.cons_inv
            rw [List.map_cons, List.nodup_cons] at hnd
            have htl := sorted_nodupKeys_perm_eq t₁ t₂ ht hs₁.of_cons hs₂.of_cons hnd.2
            rw [htl]
          · exfalso
            have hx2 : x ∈ y :: t₂ := h.subset (List.mem_cons_self x t₁)
            have hx3 : x ∈ t₂ := by
              rcases List.mem_cons.mp hx2 with h' | h'
              · exact absurd h' hxy
              · exact h'
            have hy1 : y ∈ x :: t₁ := h.symm.subset (List.mem_cons_self y t₂)
            have hy2 : y ∈ t₁ := by
              rcases List.mem_cons.mp hy1 with h' | h'
              · exact absurd h'.symm hxy
              · exact h'
            have h1 : keyLt y.1 x.1 = false := List.rel_of_pairwise_cons hs₁ hy2
            have h2 : keyLt x.1 y.1 = false := List.rel_of_pairwise_cons hs₂ hx3
            have hk : y.1 = x.1 := keyLt_connex h1 h2
            rw [List.map_cons, List.nodup_cons] at hnd
            exact hnd.1 (hk ▸ List.mem_map_of_mem Prod.fst hy2)

/-- Sorting does not care about the input order of entries whose keys are
pairwise distinct. -/
theorem sortPairs_eq_of_perm {l₁ l₂ : List (String × String)} (h : l₁.Perm l₂)
    (hnd : (l₁.map Prod.fst).Nodup) : sortPairs l₁ = sortPairs l₂ := by
  refine sorted_nodupKeys_perm_eq _ _ ?_ (sortPairs_sorted l₁) (sortPairs_sorted l₂) ?_
  · exact (sortPairs_perm l₁).trans (h.trans (sortPairs_perm l₂).symm)
  · exact (((sortPairs_perm l₁).map Prod.fst).nodup_iff).mpr hnd

/-- Inserting a pair into a list walks past a distinguished middle entry in a
way that depends only on the keys, never on the middle entry's value. -/
theorem insertPair_key_split (k v w : String) : ∀ (S : List (String × String)),
    ∃ A B, insertPair (k, v) S = A ++ (k, v) :: B ∧ insertPair (k, w) S = A ++ (k, w) :: B
  | [] => ⟨[], [], rfl, rfl⟩
  | y :: S' => by
      by_cases h : keyLt y.1 k = true
      · obtain ⟨A, B, h1, h2⟩ := insertPair_key_split k v w S'
        refine ⟨y :: A, B, ?_, ?_⟩
        · rw [insertPair, if_pos h, h1]
          rfl
        · rw [insertPair, if_pos h, h2]
          rfl
      · refine ⟨[], y :: S', ?_, ?_⟩
        · rw [insertPair, if_neg h]
          rfl
        · rw [insertPair, if_neg h]
          rfl

theorem insertPair_split (p : String × String) (k v w : String) :
    ∀ (A B : List (String × String)),
    ∃ A' B', insertPair p (A ++ (k, v) :: B) = A' ++ (k, v) :: B' ∧
      insertPair p (A ++ (k, w) :: B) = A' ++ (k, w) :: B'
  | [], B => by
      by_cases h : keyLt k p.1 = true
      · refine ⟨[], insertPair p B, ?_, ?_⟩
        · rw [List.nil_append, insertPair, if_pos h]
          rfl
        · rw [List.nil_append, insertPair, if_pos h]
          rfl
      · refine ⟨[p], B, ?_, ?_⟩
        · rw [List.nil_append, insertPair, if_neg h]
          rfl
        · rw [List.nil_append, insertPair, if_neg h]
          rfl
  | a :: A, B => by
      by_cases h : keyLt a.1 p.1 = true
      · obtain ⟨A', B', h1, h2⟩ := insertPair_split p k v w A B
        refine ⟨a :: A', B', ?_, ?_⟩
        · rw [List.cons_append, insertPair, if_pos h, h1]
          rfl
        · rw [List.cons_append, insertPair, if_pos h, h2]
          rfl
      · refine ⟨p :: a :: A, B, ?_, ?_⟩
        · rw [List.cons_append, insertPair, if_neg h]
          rfl
        · rw [List.cons_append, insertPair, if_neg h]
          rfl

theorem sortPairs_split (k v w : String) :
    ∀ (pre post : List (String × String)),
    ∃ A B, sortPairs (pre ++ (k, v) :: post) = A ++ (k, v) :: B ∧
      sortPairs (pre ++ (k, w) :: post) = A ++ (k, w) :: B
  | [], post => by
      obtain ⟨A, B, h1, h2⟩ := insertPair_key_split k v w (sortPairs post)
      exact ⟨A, B, by rw [List.nil_append, sortPairs, h1], by rw [List.nil_append, sortPairs, h2]⟩
  | p :: pre, post => by
      obtain ⟨A, B, h1, h2⟩ := sortPairs_split k v w pre post
      obtain ⟨A', B', g1, g2⟩ := insertPair_split p k v w A B
      refine ⟨A', B', ?_, ?_⟩
      · rw [List.cons_append, sortPairs, h1, g1]
      · rw [List.cons_append, sortPairs, h2, g2]

/-! ## Sensitivity of the canonical encoding to a single changed field -/

theorem canon_arr_middle_ne (pre post : List JVal) {v w : JVal}
    (h : canonicalize v ≠ canonicalize w) :
    canonicalize (.arr (pre ++ v :: post)) ≠ canonicalize (.arr (pre ++ w :: post)) := by
  intro heq
  rw [canonicalize_arr, canonicalize_arr, List.map_append, List.map_cons, List.map_append,
    List.map_cons] at heq
  obtain ⟨X, hX⟩ := joinComma_split (pre.map canonicalize) (post.map canonicalize)
  rw [hX (canonicalize v), hX (canonicalize w)] at heq
  have h1 := strAppend_cancel_left (strAppend_cancel_right heq)
  have h2 := strAppend_cancel_right (strAppend_cancel_left h1)
  exact h h2

theorem canon_obj_middle_ne (pre post : List (String × JVal)) (k : String) {v w : JVal}
    (h : canonicalize v ≠ canonicalize w) :
    canonicalize (.obj (pre ++ (k, v) :: post)) ≠ canonicalize (.obj (pre ++ (k, w) :: post)) := by
  intro heq
  rw [canonicalize_obj, canonicalize_obj, List.map_append, List.map_cons, List.map_append,
    List.map_cons] at heq
  obtain ⟨A, B, h1, h2⟩ := sortPairs_split k (canonicalize v) (canonicalize w)
    (pre.map (fun kv => (kv.1, canonicalize kv.2))) (post.map (fun kv => (kv.1, canonicalize kv.2)))
  rw [h1, h2, List.map_append, List.map_cons, List.map_append, List.map_cons] at heq
  obtain ⟨X, hX⟩ := joinComma_split (A.map serializeField) (B.map serializeField)
  rw [hX (serializeField (k, canonicalize v)), hX (serializeField (k, canonicalize w))] at heq
  have g1 := strAppend_cancel_left (strAppend_cancel_right heq)
  have g2 := strAppend_cancel_right (strAppend_cancel_left g1)
  exact h (strAppend_cancel_left (x := jsonQuote k ++ ":") g2)

/-- Single-field mutation shape: `DiffAt a b` holds when `b` is `a` with exactly one (possibly nested) position
changed, and at the changed position the old and new value have different
canonical serializations.  This is the shape of a single-field mutation of a
payload: the surrounding fields, keys and array elements are untouched. -/
inductive DiffAt : JVal → JVal → Prop where
  | here {v w : JVal} : canonicalize v ≠ canonicalize w → DiffAt v w
  | arrAt (pre post : List JVal) {v w : JVal} :
      DiffAt v w → DiffAt (.arr (pre ++ v :: post)) (.arr (pre ++ w :: post))
  | objAt (pre post : List (String × JVal)) (k : String) {v w : JVal} :
      DiffAt v w → DiffAt (.obj (pre ++ (k, v) :: post)) (.obj (pre ++ (k, w) :: post))

/-- Mutating a single field anywhere in a payload changes the canonical
encoding, as long as the changed leaf's own serialization changes. -/
theorem canonicalize_ne_of_diffAt {a b : JVal} (h : DiffAt a b) :
    canonicalize a ≠ canonicalize b := by
  induction h with
  | here h0 => exact h0
  | arrAt pre post _ ih => exact canon_arr_middle_ne pre post ih
  | objAt pre post k _ ih => exact canon_obj_middle_ne pre post k ih

/-! ## Equal field values up to insertion order -/

mutual
/-- Relation `EquivJ a b`: `a` and `b` have identical field values at every nesting
level, with object entries in arbitrary insertion order; array element order
must agree. -/
inductive EquivJ : JVal → JVal → Prop where
  | null : EquivJ .null .null
  | bool (b : Bool) : EquivJ (.bool b) (.bool b)
  | num (n : JsNum) : EquivJ (.num n) (.num n)
  | str (s : String) : EquivJ (.str s) (.str s)
  | arr {xs ys : List JVal} : EquivArr xs ys → EquivJ (.arr xs) (.arr ys)
  | obj {as cs bs : List (String × JVal)} :
      as.Perm cs → EquivFields cs bs → EquivJ (.obj as) (.obj bs)

/-- Pointwise `EquivJ` on array elements. -/
inductive EquivArr : List JVal → List JVal → Prop where
  | nil : EquivArr [] []
  | cons {x y : JVal} {xs ys : List JVal} :
      EquivJ x y → EquivArr xs ys → EquivArr (x :: xs) (y :: ys)

/-- Pointwise "same key, equivalent value" on object entries. -/
inductive EquivFields : List (String × JVal) → List (String × JVal) → Prop where
  | nil : EquivFields [] []
  | cons (k : String) {v w : JVal} {l₁ l₂ : List (String × JVal)} :
      EquivJ v w → EquivFields l₁ l₂ → EquivFields ((k, v) :: l₁) ((k, w) :: l₂)
end

mutual
/-- Well-formed JavaScript value: object keys are distinct at every nesting
level (automatically true of real JavaScript objects). -/
inductive WFJ : JVal → Prop where
  | null : WFJ .null
  | bool (b : Bool) : WFJ (.bool b)
  | num (n : JsNum) : WFJ (.num n)
  | str (s : String) : WFJ (.str s)
  | arr {xs : List JVal} : WFArr xs → WFJ (.arr xs)
  | obj {fs : List (String × JVal)} :
      (fs.map Prod.fst).Nodup → WFFields fs → WFJ (.obj fs)

inductive WFArr : List JVal → Prop where
  | nil : WFArr []
  | cons {x : JVal} {xs : List JVal} : WFJ x → WFArr xs → WFArr (x :: xs)

inductive WFFields : List (String × JVal) → Prop where
  | nil : WFFields []
  | cons (k : String) {v : JVal} {l : List (String × JVal)} :
      WFJ v → WFFields l → WFFields ((k, v) :: l)
end

theorem wfArr_mem : ∀ {xs : List JVal}, WFArr xs → ∀ {x : JVal}, x ∈ xs → WFJ x := by
  intro xs h
  induction xs with
  | nil => intro x hx; cases hx
  | cons y ys ih =>
      cases h with
      | cons hy hys =>
          intro x hx
          rcases List.mem_cons.mp hx with rfl | hx2
          · exact hy
          · exact ih hys hx2

theorem wfFields_mem : ∀ {fs : List (String × JVal)}, WFFields fs →
    ∀ {k : String} {v : JVal}, (k, v) ∈ fs → WFJ v := by
  intro fs h
  induction fs with
  | nil => intro k v hx; cases hx
  | cons y ys ih =>
      cases h with
      | cons k0 hv hys =>
          intro k v hx
          rcases List.mem_cons.mp hx with heq | hx2
          · cases heq; exact hv
          · exact ih hys hx2

theorem map_canon_eq_of_equivArr : ∀ {xs ys : List JVal}, EquivArr xs ys →
    (∀ x y, x ∈ xs → EquivJ x y → canonicalize x = canonicalize y) →
    xs.map canonicalize = ys.map canonicalize := by
  intro xs
  induction xs with
  | nil => intro ys h _; cases h; rfl
  | cons x xs ih =>
      intro ys h hrec
      cases h with
      | cons hxy hxs =>
          rw [List.map_cons, List.map_cons,
            hrec _ _ (List.mem_cons_self x xs) hxy,
            ih hxs (fun x' y' hx' h' => hrec x' y' (List.mem_cons_of_mem x hx') h')]

theorem map_canonPair_eq_of_equivFields : ∀ {l₁ l₂ : List (String × JVal)}, EquivFields l₁ l₂ →
    (∀ k v w, (k, v) ∈ l₁ → EquivJ v w → canonicalize v = canonicalize w) →
    l₁.map (fun kv => (kv.1, canonicalize kv.2)) = l₂.map (fun kv => (kv.1, canonicalize kv.2)) := by
  intro l₁
  induction l₁ with
  | nil => intro l₂ h _; cases h; rfl
  | cons p l₁ ih =>
      intro l₂ h hrec
      cases h with
      | cons k hvw hl =>
          rw [List.map_cons, List.map_cons]
          have h1 := hrec k _ _ (List.mem_cons_self _ _) hvw
          rw [ih hl (fun k' v' w' hm h' => hrec k' v' w' (List.mem_cons_of_mem _ hm) h')]
          simp only [h1]

theorem canon_equiv_aux : ∀ (n : Nat) {a b : JVal}, sizeOf a < n → WFJ a → EquivJ a b →
    canonicalize a = canonicalize b := by
  intro n
  induction n with
  | zero => intro a b h _ _; omega
  | succ n ih =>
      intro a b hsz hwf heq
      cases heq with
      | null => rfl
      | bool b => rfl
      | num m => rfl
      | str s => rfl
      | arr harr =>
          rename_i xs ys
          rw [canonicalize_arr, canonicalize_arr]
          have hwfa : WFArr xs := by cases hwf with | arr h => exact h
          have hmap : xs.map canonicalize = ys.map canonicalize := by
            refine map_canon_eq_of_equivArr harr (fun x y hx hxy => ?_)
            have h1 : sizeOf x < sizeOf xs := List.sizeOf_lt_of_mem hx
            have h2 : sizeOf (JVal.arr xs) = 1 + sizeOf xs := by simp
            exact ih (by omega) (wfArr_mem hwfa hx) hxy
          rw [hmap]
      | obj hperm hfields =>
          rename_i as cs bs
          rw [canonicalize_obj, canonicalize_obj]
          have hnd : (as.map Prod.fst).Nodup := by cases hwf with | obj h _ => exact h
          have hwff : WFFields as := by cases hwf with | obj _ h => exact h
          have hmaps : cs.map (fun kv => (kv.1, canonicalize kv.2)) =
              bs.map (fun kv => (kv.1, canonicalize kv.2)) := by
            refine map_canonPair_eq_of_equivFields hfields (fun k v w hm hvw => ?_)
            have hmas : (k, v) ∈ as := hperm.mem_iff.mpr hm
            have h1 : sizeOf (k, v) < sizeOf as := List.sizeOf_lt_of_mem hmas
            have h2 : sizeOf (JVal.obj as) = 1 + sizeOf as := by simp
            have h3 : sizeOf (k, v) = 1 + sizeOf k + sizeOf v := by simp
            exact ih (by omega) (wfFields_mem hwff hmas) hvw
          have hpm : (as.map (fun kv => (kv.1, canonicalize kv.2))).Perm
              (cs.map (fun kv => (kv.1, canonicalize kv.2))) := hperm.map _
          have hkeys : ((as.map (fun kv => (kv.1, canonicalize kv.2))).map Prod.fst).Nodup := by
            rw [List.map_map]
            exact hnd
          rw [sortPairs_eq_of_perm hpm hkeys, hmaps]

/-- Canonical encoding is insertion-order independent: equal field values
(in any object entry order, at every nesting level) give identical output. -/
theorem canonicalize_eq_of_equiv {a b : JVal} (hwf : WFJ a) (h : EquivJ a b) :
    canonicalize a = canonicalize b :=
  canon_equiv_aux (sizeOf a + 1) (Nat.lt_succ_self _) hwf h

/-! ## Idealized RSA-SHA256 signatures (src/unnamed/part_003) -/

/-- Private half of an RSA key pair, identified abstractly. -/
structure PrivKey where
  keyId : Nat
deriving DecidableEq

/-- Public half of an RSA key pair. -/
structure PubKey where
  keyId : Nat
deriving DecidableEq

/-- Model of `crypto.generateKeyPairSync("rsa", { modulusLength: 2048 })`: a
fresh key pair whose halves are linked by a shared identifier. -/
def keypair (n : Nat) : PrivKey × PubKey := (⟨n⟩, ⟨n⟩)

/-- An RSA-SHA256 signature.  RSA PKCS#1 v1.5 signing is deterministic; the
scheme is modelled ideally: a signature records the signing key and the exact
signed message, and verification accepts exactly the signature of that message
under the paired key. -/
structure RsaSig where
  keyId : Nat
  message : String
deriving DecidableEq

/-- Model of `crypto.createSign("SHA256")` + `signer.sign(PRIVATE_PEM)`. -/
def cryptoSign (priv : PrivKey) (msg : String) : RsaSig := ⟨priv.keyId, msg⟩

/-- Model of `crypto.createVerify("SHA256")` + `verifier.verify(PUBLIC_PEM, sig)`. -/
def cryptoVerify (pub : PubKey) (msg : String) (sig : RsaSig) : Bool :=
  sig.keyId == pub.keyId && sig.message == msg

/-! ## The /sign and /verify routes of src/unnamed/part_003 -/

/-- JavaScript truthiness test on a JSON value, used by `meta || {}`. -/
def jsFalsy : JVal → Bool
  | .null => true
  | .bool false => true
  | .num (.int 0) => true
  | .num .nan => true
  | .str "" => true
  | _ => false

/-- The payload object built by POST /sign (part_003 lines 81-87), in its
insertion order:
`{ id, name, meta: meta || {}, issuedAt: Date.now(), issuer: "myproductauth" }`. -/
def mkSignPayload (id name : String) (meta : Option JVal) (issuedAt : Int) : JVal :=
  .obj [("id", .str id), ("name", .str name),
        ("meta", match meta with
                 | none => .obj []
                 | some m => if jsFalsy m then .obj [] else m),
        ("issuedAt", .num (.int issuedAt)),
        ("issuer", .str "myproductauth")]

/-- The `{ payload, signature }` bundle of /sign.  The route's `signedToken`
is `base64(deflate(JSON.stringify(signedData)))`; compression and encoding are
lossless, so the wire token is modelled as the bundle itself. -/
structure SignedData where
  payload : JVal
  signature : RsaSig

/-- POST /sign (part_003 lines 76-117): requires truthy `id` and `name`
(`if (!id || !name) return 400`; the falsy string is `""`), builds the payload
and signs its canonical JSON with the private key. -/
def signEndpoint (id name : String) (meta : Option JVal) (issuedAt : Int)
    (priv : PrivKey) : Option SignedData :=
  if id = "" ∨ name = "" then none
  else
    some { payload := mkSignPayload id name meta issuedAt,
           signature := cryptoSign priv (canonicalize (mkSignPayload id name meta issuedAt)) }

/-- Response of POST /verify: `{ valid: !!ok, payload: payloadObj }`. -/
structure VerifyResp where
  valid : Bool
  payload : JVal

/-- POST /verify (part_003 lines 120-151): re-canonicalize the payload carried
by the token and verify the attached signature against it with the public key. -/
def verifyEndpoint (sd : SignedData) (pub : PubKey) : VerifyResp :=
  { valid := cryptoVerify pub (canonicalize sd.payload) sd.signature,
    payload := sd.payload }

/-! ## jsonwebtoken model (used by src/anti-counterfeit-backend/index.js) -/

/-- Plain `JSON.stringify` of a JSON value: like `canonicalize` but object
fields stay in insertion order.  The JWT payload section is the base64url of
exactly these bytes. -/
def stringifyJ : JVal → String
  | .null => "null"
  | .bool b => if b then "true" else "false"
  | .num n => numToString n
  | .str s => jsonQuote s
  | .arr xs => "[" ++ joinComma (xs.attach.map (fun x => stringifyJ x.1)) ++ "]"
  | .obj fs =>
      "\x7b" ++
        joinComma (fs.attach.map (fun kv => jsonQuote kv.1.1 ++ ":" ++ stringifyJ kv.1.2)) ++
      "\x7d"
termination_by v => sizeOf v
decreasing_by
  · have h := List.sizeOf_lt_of_mem x.2
    simp only [JVal.arr.sizeOf_spec]
    omega
  · have h := List.sizeOf_lt_of_mem kv.2
    have h2 : sizeOf kv.1 = 1 + sizeOf kv.1.1 + sizeOf kv.1.2 := by
      obtain ⟨⟨k, v⟩, hk⟩ := kv
      simp
    simp only [JVal.obj.sizeOf_spec]
    omega

theorem stringifyJ_null : stringifyJ .null = "null" := by
  simp [stringifyJ]

theorem stringifyJ_bool (b : Bool) : stringifyJ (.bool b) = if b then "true" else "false" := by
  simp [stringifyJ]

theorem stringifyJ_num (n : JsNum) : stringifyJ (.num n) = numToString n := by
  simp [stringifyJ]

theorem stringifyJ_str (s : String) : stringifyJ (.str s) = jsonQuote s := by
  simp [stringifyJ]

theorem stringifyJ_arr (xs : List JVal) :
    stringifyJ (.arr xs) = "[" ++ joinComma (xs.map stringifyJ) ++ "]" := by
  rw [stringifyJ]
  congr 1
  rw [List.attach_map_coe]

theorem stringifyJ_obj (fs : List (String × JVal)) :
    stringifyJ (.obj fs) =
      "\x7b" ++
        joinComma (fs.map (fun kv => jsonQuote kv.1 ++ ":" ++ stringifyJ kv.2)) ++
      "\x7d" := by
  rw [stringifyJ]
  congr 2
  rw [List.attach_map_coe fs (fun kv => jsonQuote kv.1 ++ ":" ++ stringifyJ kv.2)]

/-- The serialized JWT claims that an RS256 signature attests.  `jwt.sign`
signs `{ data: payload }` plus registered claims; the two claims the backend
ever reads are `data` and `exp`, so those are the ones tracked. -/
def jwtClaims (data : JVal) (exp : Option Int) : String :=
  stringifyJ (.obj (("data", data) ::
    (match exp with
     | some e => [("exp", .num (.int e))]
     | none => [])))

/-- Signature part of a JWT: the signing key and the signed claim bytes. -/
structure JwtSig where
  keyId : Nat
  message : String
deriving DecidableEq

/-- A decoded JWT as the verifier sees it: the claims carried by the payload
section plus the signature.  In an untampered token the signature covers
exactly the carried claims; tampering edits `data`/`exp` without re-signing. -/
structure JwtToken where
  data : JVal
  exp : Option Int
  sig : JwtSig

/-- Model of `jwt.sign({ data }, PRIVATE_KEY, { algorithm: "RS256", ... })`,
optionally with an `expiresIn`-derived `exp` claim. -/
def jwtSign (privKeyId : Nat) (data : JVal) (exp : Option Int) : JwtToken :=
  { data := data, exp := exp, sig := { keyId := privKeyId, message := jwtClaims data exp } }

/-- The two jsonwebtoken verification failures the backend distinguishes in
`err.message`. -/
inductive JwtError where
  | invalidSignature
  | expired
deriving DecidableEq

/-- Message text of the jsonwebtoken errors (`JsonWebTokenError` with
"invalid signature", `TokenExpiredError` with "jwt expired"). -/
def jwtErrorMessage : JwtError → String
  | .invalidSignature => "invalid signature"
  | .expired => "jwt expired"

/-- Model of `jwt.verify(signedToken, PUBLIC_KEY, { algorithms: ["RS256"] })`.
jsonwebtoken first verifies the RS256 signature over the payload section
(throwing `JsonWebTokenError("invalid signature")` on mismatch) and only then
compares the `exp` claim against the clock, throwing
`TokenExpiredError("jwt expired")` when `clockTimestamp >= exp`. -/
def jwtVerify (tok : JwtToken) (pubKeyId : Nat) (now : Int) : Except JwtError JVal :=
  if tok.sig.keyId = pubKeyId ∧ tok.sig.message = jwtClaims tok.data tok.exp then
    match tok.exp with
    | some e => if now ≥ e then .error .expired else .ok tok.data
    | none => .ok tok.data
  else .error .invalidSignature

theorem jwtVerify_sign (pk : Nat) (data : JVal) (e : Int) (now : Int) :
    jwtVerify (jwtSign pk data (some e)) pk now =
      if now ≥ e then .error .expired else .ok data := by
  rw [jwtVerify, if_pos ⟨rfl, rfl⟩]
  rfl

theorem jwtVerify_sign_noexp (pk : Nat) (data : JVal) (now : Int) :
    jwtVerify (jwtSign pk data none) pk now = .ok data := by
  rw [jwtVerify, if_pos ⟨rfl, rfl⟩]
  rfl

/-! ## Scan ledger, product registry and risk scoring (index.js) -/

/-- A row of the `verifications` table (a Scan Event). -/
structure VEvent where
  product_id : String
  is_valid : Bool
  risk_level : String
  error_message : Option String
  verified_at : Int
deriving DecidableEq

/-- Seconds in the SQL interval `'24 hours'`; timestamps are modelled as
integer seconds. -/
def interval24h : Int := 86400

/-- The count behind
`SELECT COUNT(*) FROM verifications WHERE product_id = $1 AND verified_at > NOW() - INTERVAL '24 hours'`. -/
def countWindow (verifs : List VEvent) (pid : String) (now : Int) : Nat :=
  (verifs.filter (fun e => e.product_id == pid && decide (now - interval24h < e.verified_at))).length

/-- Function `calculateRiskLevel` (index.js lines 45-61): count this product's
verification events in the trailing 24-hour window; `> 10` is `'high'`,
`> 3` is `'medium'`, otherwise `'low'`.  The whole query is wrapped in
`try/catch` and any error yields `'low'`; `queryFails` models the query
throwing. -/
def calculateRiskLevel (verifs : List VEvent) (pid : String) (now : Int)
    (queryFails : Bool) : String :=
  if queryFails then "low"
  else
    let count := countWindow verifs pid now
    if count > 10 then "high"
    else if count > 3 then "medium"
    else "low"

/-- Database state visible to /verify-token: the `products` table as
`(product_id, is_active)` rows and the `verifications` table. -/
structure Db where
  products : List (String × Bool)
  verifications : List VEvent

/-- Result of `SELECT is_active FROM products WHERE product_id = $1`:
`none` when no row exists. -/
def lookupProduct (db : Db) (pid : String) : Option Bool :=
  (db.products.find? (fun p => p.1 == pid)).map Prod.snd

/-- Which of the route's `pool.query` calls throw, one flag per call site. -/
structure DbFailures where
  productCheck : Bool
  deactInsert : Bool
  riskQuery : Bool
  validInsert : Bool
  countQuery : Bool
  catchInsert : Bool
deriving DecidableEq

/-- All database calls succeed. -/
def noDbFailures : DbFailures :=
  { productCheck := false, deactInsert := false, riskQuery := false,
    validInsert := false, countQuery := false, catchInsert := false }

/-- JSON response of POST /verify-token, with the HTTP status. -/
structure VerifyTokenResponse where
  status : Nat
  valid : Bool
  error : Option String
  details : Option String
  payload : Option JVal
  risk : Option String
  scanCount : Option Nat

/-- Field access `decoded.data.id` for an object payload with a string id;
a missing or non-object id reads as the falsy `""`.  (The sign endpoints
always place a string `id` here.) -/
def dataId (v : JVal) : String :=
  match v with
  | .obj fs =>
      match fs.find? (fun kv => kv.1 == "id") with
      | some (_, .str s) => s
      | _ => ""
  | _ => ""

/-- Line 338: `const productId = decoded.data.id || "unknown"`. -/
def pidOf (data : JVal) : String :=
  if dataId data = "" then "unknown" else dataId data

/-- Stand-in for the database driver's error message text when an insert
throws. -/
def dbErrorMessage : String := "db error"

/-- The route's outer `catch` (index.js lines 404-422): log a failed
verification for product `'unknown'` (itself best-effort) and answer
`400 { valid: false, error: "Invalid or expired token", details: err.message }`. -/
def verifyCatch (msg : String) (db : Db) (now : Int) (f : DbFailures) :
    VerifyTokenResponse × List VEvent :=
  ({ status := 400, valid := false, error := some "Invalid or expired token",
     details := some msg, payload := none, risk := none, scanCount := none },
   if f.catchInsert then db.verifications
   else db.verifications ++ [⟨"unknown", false, "high", some msg, now⟩])

/-- POST /verify-token (index.js lines 322-423).  Steps, as in the source:
`signedToken` present, `PUBLIC_KEY` set, `jwt.verify` (throws to the catch),
product-registry `is_active` check (guarded `try/catch`, defaulting to
active), the deactivated branch (whose ledger insert is NOT guarded: a throw
escapes to the outer catch), risk scoring, the guarded scan insert, and the
guarded all-time scan count (defaulting to 0).  Returns the JSON response and
the new `verifications` table. -/
def verifyTokenRoute (signedToken : Option JwtToken) (pubKey : Option Nat) (db : Db)
    (now : Int) (f : DbFailures) : VerifyTokenResponse × List VEvent :=
  match signedToken with
  | none =>
      ({ status := 400, valid := false, error := some "signedToken missing", details := none,
         payload := none, risk := none, scanCount := none }, db.verifications)
  | some tok =>
    match pubKey with
    | none =>
        ({ status := 500, valid := false, error := some "PUBLIC_KEY not set", details := none,
           payload := none, risk := none, scanCount := none }, db.verifications)
    | some pk =>
      match jwtVerify tok pk now with
      | .error e => verifyCatch (jwtErrorMessage e) db now f
      | .ok data =>
          let productId := pidOf data
          let isActive := if f.productCheck then true else (lookupProduct db productId).getD true
          if isActive = false then
            if f.deactInsert then verifyCatch dbErrorMessage db now f
            else
              ({ status := 200, valid := false,
                 error := some "This product has been deactivated", details := none,
                 payload := some data, risk := some "high", scanCount := none },
               db.verifications ++ [⟨productId, false, "high", some "Product deactivated", now⟩])
          else
            let risk := calculateRiskLevel db.verifications productId now f.riskQuery
            let verifs1 := if f.validInsert then db.verifications
              else db.verifications ++ [⟨productId, true, risk, none, now⟩]
            let scanCount := if f.countQuery then 0
              else (verifs1.filter (fun e => e.product_id == productId)).length
            ({ status := 200, valid := true, error := none, details := none,
               payload := some data, risk := some risk, scanCount := some scanCount }, verifs1)

/-- Route behaviour when `jwt.verify` throws: the outer catch answers. -/
theorem verifyTokenRoute_jwtError {tok : JwtToken} {pk : Nat} (db : Db) (now : Int)
    (f : DbFailures) {e : JwtError} (h : jwtVerify tok pk now = .error e) :
    verifyTokenRoute (some tok) (some pk) db now f = verifyCatch (jwtErrorMessage e) db now f := by
  simp only [verifyTokenRoute, h]

/-- Route behaviour in the deactivated branch when the (unguarded) ledger
insert succeeds. -/
theorem verifyTokenRoute_deactivated {tok : JwtToken} {pk : Nat} {db : Db} {now : Int}
    {f : DbFailures} {data : JVal}
    (hver : jwtVerify tok pk now = .ok data)
    (hrow : lookupProduct db (pidOf data) = some false)
    (hpc : f.productCheck = false) (hdi : f.deactInsert = false) :
    verifyTokenRoute (some tok) (some pk) db now f =
      ({ status := 200, valid := false, error := some "This product has been deactivated",
         details := none, payload := some data, risk := some "high", scanCount := none },
       db.verifications ++ [⟨pidOf data, false, "high", some "Product deactivated", now⟩]) := by
  simp only [verifyTokenRoute, hver, hpc, hrow]
  simp [hdi]

/-- Route behaviour in the deactivated branch when the unguarded ledger insert
throws: the outer catch takes over. -/
theorem verifyTokenRoute_deactivated_insertFails {tok : JwtToken} {pk : Nat} {db : Db}
    {now : Int} {f : DbFailures} {data : JVal}
    (hver : jwtVerify tok pk now = .ok data)
    (hrow : lookupProduct db (pidOf data) = some false)
    (hpc : f.productCheck = false) (hdi : f.deactInsert = true) :
    verifyTokenRoute (some tok) (some pk) db now f = verifyCatch dbErrorMessage db now f := by
  simp only [verifyTokenRoute, hver, hpc, hrow]
  simp [hdi]

/-! ## Claims -/

/-- C1: For every valid payload (required fields `id` and `name` present and
truthy) and a freshly generated RSA key pair `(priv, pub)`, verifying the
token produced by signing the payload with `priv` against `pub` returns
`valid == true`, and the payload recovered by the verifier deep-equals the
signed payload. -/
theorem c1_round_trip (id name : String) (meta : Option JVal) (issuedAt : Int) (n : Nat)
    (hid : id ≠ "") (hname : name ≠ "") :
    ∃ sd, signEndpoint id name meta issuedAt (keypair n).1 = some sd ∧
      (verifyEndpoint sd (keypair n).2).valid = true ∧
      (verifyEndpoint sd (keypair n).2).payload = sd.payload ∧
      sd.payload = mkSignPayload id name meta issuedAt := by
  have hcond : ¬ (id = "" ∨ name = "") := by
    rintro (h | h)
    · exact hid h
    · exact hname h
  refine ⟨{ payload := mkSignPayload id name meta issuedAt,
            signature := cryptoSign (keypair n).1 (canonicalize (mkSignPayload id name meta issuedAt)) },
          ?_, ?_, rfl, rfl⟩
  · rw [signEndpoint, if_neg hcond]
  · simp [verifyEndpoint, cryptoVerify, cryptoSign, keypair]

theorem c1_round_trip_witness :
    ∃ sd, signEndpoint "SKU-42" "Widget" none 1700000000 (keypair 0).1 = some sd ∧
      (verifyEndpoint sd (keypair 0).2).valid = true ∧
      (verifyEndpoint sd (keypair 0).2).payload = sd.payload ∧
      sd.payload = mkSignPayload "SKU-42" "Widget" none 1700000000 :=
  c1_round_trip "SKU-42" "Widget" none 1700000000 0 (by decide) (by decide)

/-- C5: The canonical encoder is deterministic and insertion-order
independent: payloads with identical field values at every nesting level
(object entries in any insertion order, keys distinct as in JavaScript)
encode to identical bytes; object keys are sorted at every nesting level
(sorted, and a permutation of the fields); array element order is
preserved. -/
theorem c5_canonical_determinism :
    (∀ a b : JVal, WFJ a → EquivJ a b → canonicalize a = canonicalize b) ∧
    (∀ fs : List (String × JVal),
      KeySorted (sortPairs (fs.map (fun kv => (kv.1, canonicalize kv.2)))) ∧
      (sortPairs (fs.map (fun kv => (kv.1, canonicalize kv.2)))).Perm
        (fs.map (fun kv => (kv.1, canonicalize kv.2)))) ∧
    (∀ xs : List JVal, canonicalize (.arr xs) = "[" ++ joinComma (xs.map canonicalize) ++ "]") :=
  ⟨fun _ _ hwf h => canonicalize_eq_of_equiv hwf h,
   fun _ => ⟨sortPairs_sorted _, sortPairs_perm _⟩,
   canonicalize_arr⟩

theorem c5_canonical_determinism_witness :
    canonicalize (.obj [("b", .bool true), ("a", .null)]) =
      canonicalize (.obj [("a", .null), ("b", .bool true)]) :=
  c5_canonical_determinism.1 _ _
    (WFJ.obj (by decide)
      (WFFields.cons "b" (WFJ.bool true) (WFFields.cons "a" WFJ.null WFFields.nil)))
    (EquivJ.obj (List.Perm.swap ("a", JVal.null) ("b", JVal.bool true) [])
      (EquivFields.cons "a" EquivJ.null
        (EquivFields.cons "b" (EquivJ.bool true) EquivFields.nil)))

/-- C2 (amended): mutating a single field of a signed payload — at any
nesting level, including nested metadata — yields an invalid signature
whenever the mutation changes the mutated field's own canonical
serialization.  (As stated the claim is false: see `c2_counterexample` —
values whose `JSON.stringify` images coincide, such as `null` vs `NaN`, are
interchangeable without invalidating the signature.) -/
theorem c2_tamper_sensitivity (P P' : JVal) (n : Nat) (h : DiffAt P P') :
    (verifyEndpoint { payload := P', signature := cryptoSign (keypair n).1 (canonicalize P) }
      (keypair n).2).valid = false := by
  have h2 : (canonicalize P == canonicalize P') = false :=
    beq_eq_false_iff_ne.mpr (canonicalize_ne_of_diffAt h)
  simp [verifyEndpoint, cryptoVerify, cryptoSign, keypair, h2]

theorem c2_tamper_sensitivity_witness :
    (verifyEndpoint
      { payload := JVal.obj ([("id", JVal.str "S")] ++ ("name", JVal.str "B") :: []),
        signature := cryptoSign (keypair 0).1
          (canonicalize (JVal.obj ([("id", JVal.str "S")] ++ ("name", JVal.str "A") :: []))) }
      (keypair 0).2).valid = false :=
  c2_tamper_sensitivity _ _ 0
    (DiffAt.objAt [("id", JVal.str "S")] [] "name"
      (DiffAt.here (by simp only [canonicalize_str]; decide)))

/-- C2 counterexample: a single-field mutation that verifies.  Replacing the
nested metadata field `x: null` by `x: NaN` gives a different payload
(`NaN` is a different JavaScript value than `null`), yet `JSON.stringify`
serializes both as `null`, so the canonical bytes — and hence the signature
check — are unchanged, and verification still reports `valid: true`. -/
theorem c2_counterexample :
    (JVal.obj [("id", JVal.str "A"), ("meta", JVal.obj [("x", JVal.null)])] ≠
      JVal.obj [("id", JVal.str "A"), ("meta", JVal.obj [("x", JVal.num JsNum.nan)])]) ∧
    (verifyEndpoint
      { payload := JVal.obj [("id", JVal.str "A"), ("meta", JVal.obj [("x", JVal.num JsNum.nan)])],
        signature := cryptoSign (keypair 0).1
          (canonicalize (JVal.obj [("id", JVal.str "A"), ("meta", JVal.obj [("x", JVal.null)])])) }
      (keypair 0).2).valid = true := by
  constructor
  · intro h
    simp at h
  · have hc : canonicalize (JVal.obj [("id", JVal.str "A"), ("meta", JVal.obj [("x", JVal.null)])]) =
        canonicalize (JVal.obj [("id", JVal.str "A"), ("meta", JVal.obj [("x", JVal.num JsNum.nan)])]) := by
      simp only [canonicalize_obj, canonicalize_null, canonicalize_num, numToString,
        List.map_cons, List.map_nil]
    simp [verifyEndpoint, cryptoVerify, cryptoSign, keypair, hc]

/-- C9 (amended): the encoder never signals an `EncodingError`: it is a total
terminating function on every (inductively built, hence acyclic) value, and
non-finite numbers are not rejected — `JSON.stringify` renders `NaN`,
`Infinity` and `-Infinity` as `null`, indistinguishable from a genuine
`null`. -/
theorem c9_nonfinite_serialized_as_null :
    canonicalize (.num .nan) = "null" ∧
    canonicalize (.num .infinity) = "null" ∧
    canonicalize (.num .negInfinity) = "null" ∧
    canonicalize (.num .nan) = canonicalize .null := by
  refine ⟨?_, ?_, ?_, ?_⟩ <;>
    simp [canonicalize_num, canonicalize_null, numToString]

/-- C9 counterexample: `encode` does not signal an error on the non-finite
number `NaN`; it produces the ordinary output `"null"`, the same bytes as the
encoding of `null`. -/
theorem c9_counterexample :
    canonicalize (.num .nan) = canonicalize .null ∧ canonicalize (.num .nan) = "null" := by
  constructor <;> simp [canonicalize_num, canonicalize_null, numToString]

/-- C4: with the ledger query succeeding, the risk level is determined solely
by the count of the product's verification events in the trailing 24-hour
window: count ≤ 3 is `low`, 3 < count ≤ 10 is `medium`, count > 10 is
`high`. -/
theorem c4_risk_thresholds (verifs : List VEvent) (pid : String) (now : Int) :
    calculateRiskLevel verifs pid now false =
      if countWindow verifs pid now ≤ 3 then "low"
      else if countWindow verifs pid now ≤ 10 then "medium"
      else "high" := by
  rw [calculateRiskLevel]
  by_cases h1 : countWindow verifs pid now > 10
  · rw [if_neg (by simp), if_pos h1, if_neg (by omega), if_neg (by omega)]
  · rw [if_neg (by simp), if_neg h1]
    by_cases h2 : countWindow verifs pid now > 3
    · rw [if_pos h2, if_neg (by omega), if_pos (by omega)]
    · rw [if_neg h2, if_pos (by omega)]

/-- C10: when the scan-ledger count query fails during risk scoring,
`calculateRiskLevel` returns `low`, whatever the database holds — risk
scoring fails open to the minimum level. -/
theorem c10_risk_fails_open (verifs : List VEvent) (pid : String) (now : Int) :
    calculateRiskLevel verifs pid now true = "low" := by
  rw [calculateRiskLevel, if_pos rfl]

/-- C3: for a token whose signature verifies and whose product id has a
registry row with `is_active = false` (with the registry query and the
deactivation ledger insert succeeding), verification answers `valid: false`
with the deactivation message, which is distinct from the message used for
cryptographic failures, even though the signature check passed. -/
theorem c3_deactivated_reason (tok : JwtToken) (pk : Nat) (db : Db) (now : Int)
    (f : DbFailures) (data : JVal)
    (hver : jwtVerify tok pk now = .ok data)
    (hrow : lookupProduct db (pidOf data) = some false)
    (hpc : f.productCheck = false)
    (hdi : f.deactInsert = false) :
    ((verifyTokenRoute (some tok) (some pk) db now f).1.valid = false) ∧
    ((verifyTokenRoute (some tok) (some pk) db now f).1.error =
      some "This product has been deactivated") ∧
    ((verifyTokenRoute (some tok) (some pk) db now f).1.error ≠
      some "Invalid or expired token") ∧
    ((verifyTokenRoute (some tok) (some pk) db now f).1.payload = some data) := by
  simp only [verifyTokenRoute, hver, hpc, hrow, if_false, Bool.false_eq_true, Option.getD_some]
  simp [hdi]

theorem c3_deactivated_reason_witness :
    ((verifyTokenRoute (some (jwtSign 0 (JVal.obj [("id", JVal.str "P1")]) none)) (some 0)
        { products := [("P1", false)], verifications := [] } 0 noDbFailures).1.valid = false) ∧
    ((verifyTokenRoute (some (jwtSign 0 (JVal.obj [("id", JVal.str "P1")]) none)) (some 0)
        { products := [("P1", false)], verifications := [] } 0 noDbFailures).1.error =
      some "This product has been deactivated") ∧
    ((verifyTokenRoute (some (jwtSign 0 (JVal.obj [("id", JVal.str "P1")]) none)) (some 0)
        { products := [("P1", false)], verifications := [] } 0 noDbFailures).1.error ≠
      some "Invalid or expired token") ∧
    ((verifyTokenRoute (some (jwtSign 0 (JVal.obj [("id", JVal.str "P1")]) none)) (some 0)
        { products := [("P1", false)], verifications := [] } 0 noDbFailures).1.payload =
      some (JVal.obj [("id", JVal.str "P1")])) :=
  c3_deactivated_reason _ 0 _ 0 noDbFailures _
    (jwtVerify_sign_noexp 0 (JVal.obj [("id", JVal.str "P1")]) 0)
    (by decide) rfl rfl

/-- C8: a product id with no Product Registry row is treated as active
(`isActive` defaults to `true`), so a cryptographically valid token whose id
was never persisted verifies successfully instead of being rejected as
deactivated. -/
theorem c8_unknown_id_active (tok : JwtToken) (pk : Nat) (db : Db) (now : Int)
    (f : DbFailures) (data : JVal)
    (hver : jwtVerify tok pk now = .ok data)
    (hpc : f.productCheck = false)
    (hrow : lookupProduct db (pidOf data) = none) :
    ((verifyTokenRoute (some tok) (some pk) db now f).1.valid = true) ∧
    ((verifyTokenRoute (some tok) (some pk) db now f).1.error = none) ∧
    ((verifyTokenRoute (some tok) (some pk) db now f).1.payload = some data) := by
  simp only [verifyTokenRoute, hver, hpc, hrow, if_false, Bool.false_eq_true, Option.getD_none]
  simp

theorem c8_unknown_id_active_witness :
    ((verifyTokenRoute (some (jwtSign 0 (JVal.obj [("id", JVal.str "NEW-9")]) none)) (some 0)
        { products := [("OTHER", true)], verifications := [] } 0 noDbFailures).1.valid = true) ∧
    ((verifyTokenRoute (some (jwtSign 0 (JVal.obj [("id", JVal.str "NEW-9")]) none)) (some 0)
        { products := [("OTHER", true)], verifications := [] } 0 noDbFailures).1.error = none) ∧
    ((verifyTokenRoute (some (jwtSign 0 (JVal.obj [("id", JVal.str "NEW-9")]) none)) (some 0)
        { products := [("OTHER", true)], verifications := [] } 0 noDbFailures).1.payload =
      some (JVal.obj [("id", JVal.str "NEW-9")])) :=
  c8_unknown_id_active _ 0 _ 0 noDbFailures _
    (jwtVerify_sign_noexp 0 (JVal.obj [("id", JVal.str "NEW-9")]) 0)
    rfl (by decide)

/-- C7 (amended): a scan-ledger failure never blocks a passing verification:
if the token passes the signature and expiry checks and the deactivation
check passes (no registry row with `is_active = false`), the result is
reported `valid: true` under every combination of database-call failures.
(As stated the claim is false: in the deactivated branch the ledger insert is
not guarded, so its failure replaces the "deactivated" answer with the
generic invalid-token error — see `c7_counterexample`.) -/
theorem c7_ledger_failure_never_blocks_valid (tok : JwtToken) (pk : Nat) (db : Db)
    (now : Int) (f : DbFailures) (data : JVal)
    (hver : jwtVerify tok pk now = .ok data)
    (hactive : lookupProduct db (pidOf data) ≠ some false) :
    ((verifyTokenRoute (some tok) (some pk) db now f).1.valid = true) ∧
    ((verifyTokenRoute (some tok) (some pk) db now f).1.error = none) := by
  have hact : (if f.productCheck then true else (lookupProduct db (pidOf data)).getD true) = true := by
    cases hfp : f.productCheck
    · cases hl : lookupProduct db (pidOf data) with
      | none => simp
      | some b =>
          cases b
          · exact absurd hl hactive
          · simp
    · simp
  simp only [verifyTokenRoute, hver, hact]
  simp

theorem c7_ledger_failure_never_blocks_valid_witness :
    ((verifyTokenRoute (some (jwtSign 0 (JVal.obj [("id", JVal.str "P1")]) none)) (some 0)
        { products := [], verifications := [] } 0
        { productCheck := true, deactInsert := true, riskQuery := true,
          validInsert := true, countQuery := true, catchInsert := true }).1.valid = true) ∧
    ((verifyTokenRoute (some (jwtSign 0 (JVal.obj [("id", JVal.str "P1")]) none)) (some 0)
        { products := [], verifications := [] } 0
        { productCheck := true, deactInsert := true, riskQuery := true,
          validInsert := true, countQuery := true, catchInsert := true }).1.error = none) :=
  c7_ledger_failure_never_blocks_valid _ 0 _ 0 _ _
    (jwtVerify_sign_noexp 0 (JVal.obj [("id", JVal.str "P1")]) 0)
    (by decide)

/-- C7 counterexample: a ledger write failure does change a verification
outcome.  With a deactivated product, the deactivation branch's unguarded
`INSERT INTO verifications` throws to the outer catch: the response changes
from the "deactivated" answer to the generic `"Invalid or expired token"`
error. -/
theorem c7_counterexample :
    ((verifyTokenRoute (some (jwtSign 0 (JVal.obj [("id", JVal.str "P1")]) none)) (some 0)
        { products := [("P1", false)], verifications := [] } 0 noDbFailures).1.error =
      some "This product has been deactivated") ∧
    ((verifyTokenRoute (some (jwtSign 0 (JVal.obj [("id", JVal.str "P1")]) none)) (some 0)
        { products := [("P1", false)], verifications := [] } 0
        { productCheck := false, deactInsert := true, riskQuery := false,
          validInsert := false, countQuery := false, catchInsert := false }).1.error =
      some "Invalid or expired token") := by
  have hrow : lookupProduct { products := [("P1", false)], verifications := [] }
      (pidOf (JVal.obj [("id", JVal.str "P1")])) = some false := by decide
  constructor
  · rw [verifyTokenRoute_deactivated
      (jwtVerify_sign_noexp 0 (JVal.obj [("id", JVal.str "P1")]) 0) hrow rfl rfl]
  · rw [verifyTokenRoute_deactivated_insertFails
      (jwtVerify_sign_noexp 0 (JVal.obj [("id", JVal.str "P1")]) 0) hrow rfl rfl]
    rfl

/-- C6 (amended): a token with a correct signature whose expiry has elapsed
always fails, with the distinct jsonwebtoken reason "jwt expired" surfaced in
the response's `details` (the `error` field is the shared
"Invalid or expired token" text).  The ordering in the claim is reversed on
the code: jsonwebtoken checks the signature before the expiry, so an expired
token with a wrong signature reports "invalid signature" instead — see
`c6_counterexample`. -/
theorem c6_expiry_enforcement (pk : Nat) (data : JVal) (e now : Int) (db : Db)
    (f : DbFailures) (h : now > e) :
    (jwtVerify (jwtSign pk data (some e)) pk now = .error .expired) ∧
    ((verifyTokenRoute (some (jwtSign pk data (some e))) (some pk) db now f).1.valid = false) ∧
    ((verifyTokenRoute (some (jwtSign pk data (some e))) (some pk) db now f).1.details =
      some (jwtErrorMessage .expired)) ∧
    ((verifyTokenRoute (some (jwtSign pk data (some e))) (some pk) db now f).1.error =
      some "Invalid or expired token") ∧
    jwtErrorMessage .expired ≠ jwtErrorMessage .invalidSignature := by
  have hj : jwtVerify (jwtSign pk data (some e)) pk now = .error .expired := by
    rw [jwtVerify_sign, if_pos (le_of_lt h)]
  refine ⟨hj, ?_, ?_, ?_, by decide⟩ <;>
    rw [verifyTokenRoute_jwtError db now f hj] <;> rfl

theorem c6_expiry_enforcement_witness :
    (jwtVerify (jwtSign 0 JVal.null (some 5)) 0 10 = .error .expired) ∧
    ((verifyTokenRoute (some (jwtSign 0 JVal.null (some 5))) (some 0)
        { products := [], verifications := [] } 10 noDbFailures).1.valid = false) ∧
    ((verifyTokenRoute (some (jwtSign 0 JVal.null (some 5))) (some 0)
        { products := [], verifications := [] } 10 noDbFailures).1.details =
      some (jwtErrorMessage .expired)) ∧
    ((verifyTokenRoute (some (jwtSign 0 JVal.null (some 5))) (some 0)
        { products := [], verifications := [] } 10 noDbFailures).1.error =
      some "Invalid or expired token") ∧
    jwtErrorMessage .expired ≠ jwtErrorMessage .invalidSignature :=
  c6_expiry_enforcement 0 JVal.null 5 10 _ noDbFailures (by decide)

/-- C6 counterexample: a token whose expiry has elapsed does not always fail
with the Expired reason — the signature is checked first.  This token's
payload was tampered with after signing and its expiry is in the past; the
route reports "invalid signature", not "jwt expired". -/
theorem c6_counterexample :
    ((10 : Int) > 5) ∧
    (jwtVerify
      (⟨JVal.str "b", some 5, ⟨0, jwtClaims (JVal.str "a") (some 5)⟩⟩ : JwtToken)
      0 10 = .error .invalidSignature) ∧
    ((verifyTokenRoute
      (some (⟨JVal.str "b", some 5,
        ⟨0, jwtClaims (JVal.str "a") (some 5)⟩⟩ : JwtToken))
      (some 0) ⟨[], []⟩ 10 noDbFailures).1.details =
      some (jwtErrorMessage .invalidSignature)) ∧
    jwtErrorMessage .invalidSignature ≠ jwtErrorMessage .expired := by
  have hmsg : jwtClaims (JVal.str "a") (some 5) ≠
      jwtClaims (JVal.str "b") (some 5) := by
    simp only [jwtClaims, stringifyJ_obj, stringifyJ_str, stringifyJ_num, List.map_cons,
      List.map_nil]
    decide
  have hj : jwtVerify
      (⟨JVal.str "b", some 5, ⟨0, jwtClaims (JVal.str "a") (some 5)⟩⟩ : JwtToken)
      0 10 = .error .invalidSignature := by
    rw [jwtVerify, if_neg]
    intro hcond
    exact hmsg hcond.2
  refine ⟨by decide, hj, ?_, by decide⟩
  rw [verifyTokenRoute_jwtError ⟨[], []⟩ 10 noDbFailures hj]
  rfl
